import Mathlib

set_option linter.unusedSectionVars false
set_option linter.unusedVariables false

/-!
Verification development for the Gravitas vector-field compute engine.

The grid is a fixed-size 2D array of 2-component vectors, stored row-major
(index `y * w + x`), mirroring the numpy array of shape `(h, w, 2)` used by
the source.  Cell components are modelled over an arbitrary linear ordered
field `K` (instantiated at `ℚ` for executable witnesses and at `ℝ` for the
particle integrator, whose speed clamp takes a square root).

Source of each definition:
- `Gravitas.sum_adjacent_vectors`, `Gravitas.update_grid_with_adjacent_sum`,
  `Gravitas.add_vector_at_position`, `Gravitas.fit_vector_at_position`,
  `Gravitas.create_tiny_vector` and the batch variants are translated from
  `src/gravitas/compute/cpu_vector_field.py` (class `CPUVectorFieldCalculator`).
- The marker integrator is translated from `src/plugins/marker_system.py`.
- The device dispatcher is translated from `src/gravitas/compute/vector_field.py`.
- The grid manager load path is translated from `src/gravitas/core/app.py`.
-/

namespace Gravitas

/-- A 2D grid of 2-component vectors: numpy array of shape `(h, w, 2)`,
row-major by `y` then `x`.  `data` holds `h * w` cells. -/
structure Grid (K : Type) where
  h : Nat
  w : Nat
  data : List (K × K)
deriving Repr, DecidableEq

variable {K : Type} [LinearOrderedField K] [FloorRing K]

/-- Componentwise addition of 2-component vectors. -/
def vadd (a b : K × K) : K × K := (a.1 + b.1, a.2 + b.2)

/-- Scalar multiple of a 2-component vector. -/
def vsmul (c : K) (a : K × K) : K × K := (c * a.1, c * a.2)

/-- Read cell `(x, y)` (column `x`, row `y`); reads outside the stored data
default to the zero vector.  All callers below index in range. -/
def Grid.cell (g : Grid K) (x y : Nat) : K × K := g.data.getD (y * g.w + x) (0, 0)

/-- Read a cell at integer (possibly signed) indices, as the numpy accesses
`grid[ny, nx]` do after an explicit bounds check. -/
def Grid.cellI (g : Grid K) (ix iy : Int) : K × K :=
  g.data.getD (iy * g.w + ix).toNat (0, 0)

/-- One neighbor term of `sum_adjacent_vectors`: a neighbor inside
`[0,w) x [0,h)` contributes its value scaled by `neighbor_weight`; a neighbor
outside bounds contributes zero (`cpu_vector_field.py` lines 28-35). -/
def neighborContrib (g : Grid K) (neighbor_weight : K) (nx ny : Int) : K × K :=
  if 0 ≤ nx ∧ nx < (g.w : Int) ∧ 0 ≤ ny ∧ ny < (g.h : Int) then
    vsmul neighbor_weight (g.cellI nx ny)
  else (0, 0)

/-- `CPUVectorFieldCalculator.sum_adjacent_vectors` (`cpu_vector_field.py`
lines 13-37): weighted sum of the cell itself (if in bounds) and its four
axis neighbors, out-of-bounds neighbors contributing zero.  The source
iterates the offsets `(0,-1), (0,1), (-1,0), (1,0)` as `(dx, dy)` pairs. -/
def sum_adjacent_vectors (g : Grid K) (x y : Int) (self_weight neighbor_weight : K) :
    K × K :=
  let selfC : K × K :=
    if 0 ≤ x ∧ x < (g.w : Int) ∧ 0 ≤ y ∧ y < (g.h : Int) then
      vsmul self_weight (g.cellI x y)
    else (0, 0)
  vadd (vadd (vadd (vadd selfC
    (neighborContrib g neighbor_weight x (y - 1)))
    (neighborContrib g neighbor_weight x (y + 1)))
    (neighborContrib g neighbor_weight (x - 1) y))
    (neighborContrib g neighbor_weight (x + 1) y)

/-- One output cell of `update_grid_with_adjacent_sum` at flat index `i`.
The source pads the grid with `mode=edge` and combines the four shifted
views, so each missing neighbor of a boundary cell is replaced by the cell
row/column clamped back into range (`cpu_vector_field.py` lines 50-59):
row `y+1` clamps to `h-1`, row `y-1` to `0` (Nat subtraction), and likewise
for columns. -/
def diffuseCell (g : Grid K) (self_weight neighbor_weight : K) (i : Nat) : K × K :=
  let y := i / g.w
  let x := i % g.w
  let up := g.cell x (min (y + 1) (g.h - 1))
  let down := g.cell x (y - 1)
  let left := g.cell (min (x + 1) (g.w - 1)) y
  let right := g.cell (x - 1) y
  vadd (vsmul neighbor_weight (vadd (vadd (vadd up down) left) right))
    (vsmul self_weight (g.cell x y))

/-- `CPUVectorFieldCalculator.update_grid_with_adjacent_sum`
(`cpu_vector_field.py` lines 39-62): the full-grid diffusion operator with
edge-replicated virtual borders, overwriting the buffer.  The two weights
are read from the external state collaborator by the source; here they are
explicit parameters. -/
def update_grid_with_adjacent_sum (g : Grid K) (self_weight neighbor_weight : K) :
    Grid K :=
  { g with data := (List.range (g.h * g.w)).map (diffuseCell g self_weight neighbor_weight) }

/-- Clamp a continuous coordinate into `[0, n-1]`, as the source
`max(0.0, min(n - 1.0, float(c)))` (`cpu_vector_field.py` lines 110-111). -/
def clampCoord (c : K) (n : Nat) : K := max 0 (min ((n : K) - 1) c)

/-- The four cell indices of a bilinear splat or sample at `(x, y)`:
`x0 = floor(clamped x)`, `x1 = min(x0 + 1, w - 1)`, and likewise for rows
(`cpu_vector_field.py` lines 113-116 and 148-151).  Returned as
`(x0, x1, y0, y1)`. -/
def splatIndices (g : Grid K) (x y : K) : Int × Int × Int × Int :=
  (⌊clampCoord x g.w⌋, min (⌊clampCoord x g.w⌋ + 1) ((g.w : Int) - 1),
    ⌊clampCoord y g.h⌋, min (⌊clampCoord y g.h⌋ + 1) ((g.h : Int) - 1))

/-- Accumulate `v` into the cell at integer indices `(ix, iy)`:
`grid[iy, ix] += v`.  A write whose flat index falls outside the stored
data leaves the grid unchanged (the source wraps the writes in a broad
exception guard that swallows indexing failures). -/
def Grid.addAt (g : Grid K) (ix iy : Int) (v : K × K) : Grid K :=
  let idx := (iy * g.w + ix).toNat
  { g with data := g.data.set idx (vadd (g.data.getD idx (0, 0)) v) }

/-- `CPUVectorFieldCalculator.add_vector_at_position` (`cpu_vector_field.py`
lines 103-136): bilinear scatter-add of `(vx, vy)` into the four cells
around the clamped `(x, y)`, written in the source order
`(y0,x0), (y0,x1), (y1,x0), (y1,x1)` with weights
`w00 = (1-wx)(1-wy)`, `w01 = wx(1-wy)`, `w10 = (1-wx)wy`, `w11 = wx*wy`. -/
def add_vector_at_position (g : Grid K) (x y vx vy : K) : Grid K :=
  let p := splatIndices g x y
  let wx := clampCoord x g.w - p.1
  let wy := clampCoord y g.h - p.2.2.1
  ((((g.addAt p.1 p.2.2.1 ((1 - wx) * (1 - wy) * vx, (1 - wx) * (1 - wy) * vy)).addAt
      p.2.1 p.2.2.1 (wx * (1 - wy) * vx, wx * (1 - wy) * vy)).addAt
      p.1 p.2.2.2 ((1 - wx) * wy * vx, (1 - wx) * wy * vy)).addAt
      p.2.1 p.2.2.2 (wx * wy * vx, wx * wy * vy))

/-- `CPUVectorFieldCalculator.fit_vector_at_position` (`cpu_vector_field.py`
lines 138-164): bilinear read at the clamped `(x, y)` using the same
corner indices and weights as the splat. -/
def fit_vector_at_position (g : Grid K) (x y : K) : K × K :=
  let p := splatIndices g x y
  let wx := clampCoord x g.w - p.1
  let wy := clampCoord y g.h - p.2.2.1
  let v00 := g.cellI p.1 p.2.2.1
  let v01 := g.cellI p.2.1 p.2.2.1
  let v10 := g.cellI p.1 p.2.2.2
  let v11 := g.cellI p.2.1 p.2.2.2
  ((1 - wx) * (1 - wy) * v00.1 + wx * (1 - wy) * v01.1 +
      (1 - wx) * wy * v10.1 + wx * wy * v11.1,
    (1 - wx) * (1 - wy) * v00.2 + wx * (1 - wy) * v01.2 +
      (1 - wx) * wy * v10.2 + wx * wy * v11.2)

/-- Number of the four axis neighbors of in-bounds cell `(x, y)` that fall
outside `[0,w) x [0,h)` (0 in the interior, 1 on an edge, 2 in a corner,
up to 4 on degenerate 1-wide or 1-high grids). -/
def boundaryDeficit (g : Grid K) (x y : Nat) : Nat :=
  (if g.h ≤ y + 1 then 1 else 0) + (if y = 0 then 1 else 0) +
    (if g.w ≤ x + 1 then 1 else 0) + (if x = 0 then 1 else 0)

/-- `CPUVectorFieldCalculator.create_tiny_vector` (`cpu_vector_field.py`
lines 72-85), the splat-cross seed: clamp `(x, y)` into bounds, then issue
four splats at the axis offsets, in the iteration order of the source
loops `(dx, dy) = (0,-1), (-1,0), (1,0), (0,1)`, each carrying the vector
`(dx * mag, dy * mag)`. -/
def create_tiny_vector (g : Grid K) (x y mag : K) : Grid K :=
  let xc := clampCoord x g.w
  let yc := clampCoord y g.h
  add_vector_at_position
    (add_vector_at_position
      (add_vector_at_position
        (add_vector_at_position g xc (yc - 1) (0 * mag) ((-1) * mag))
        (xc - 1) yc ((-1) * mag) (0 * mag))
      (xc + 1) yc (1 * mag) (0 * mag))
    xc (yc + 1) (0 * mag) (1 * mag)

/-- `CPUVectorFieldCalculator.create_tiny_vectors_batch` (`cpu_vector_field.py`
lines 87-101): per-entry loop whose body inlines exactly the clamp and
cross-splat sequence of `create_tiny_vector`. -/
def create_tiny_vectors_batch (g : Grid K) (ps : List (K × K × K)) : Grid K :=
  ps.foldl (fun g2 p => create_tiny_vector g2 p.1 p.2.1 p.2.2) g

/-- `CPUVectorFieldCalculator.fit_vectors_at_positions_batch`
(`cpu_vector_field.py` lines 166-171): per-position sampling loop, results
index-aligned with the input list. -/
def fit_vectors_at_positions_batch (g : Grid K) (ps : List (K × K)) : List (K × K) :=
  ps.map (fun p => fit_vector_at_position g p.1 p.2)

/-- A particle record, the marker dict of `marker_system.py` line 17:
continuous position, magnitude, velocity. -/
structure Marker (K : Type) where
  x : K
  y : K
  mag : K
  vx : K
  vy : K
deriving Repr, DecidableEq

/-- `MarkerSystem._clamp_velocity` (`marker_system.py` lines 96-102):
rescale the velocity to norm `cell_size` when its euclidean norm
`(vx ** 2 + vy ** 2) ** 0.5` exceeds `cell_size`. -/
noncomputable def clamp_velocity (vx vy cell_size : ℝ) : ℝ × ℝ :=
  let speed := Real.sqrt (vx ^ 2 + vy ^ 2)
  if speed > cell_size then (vx / speed * cell_size, vy / speed * cell_size)
  else (vx, vy)

/-- `MarkerSystem._update_position` (`marker_system.py` lines 104-108):
euler step clamped into `[0, w-1] x [0, h-1]`. -/
noncomputable def update_position (x y vx vy dt : ℝ) (w h : Nat) : ℝ × ℝ :=
  (max 0 (min ((w : ℝ) - 1) (x + vx * dt)), max 0 (min ((h : ℝ) - 1) (y + vy * dt)))

/-- `MarkerSystem._apply_physics` (`marker_system.py` lines 110-115):
`vy += gravity * dt`, then both components scaled by `speed_factor`. -/
noncomputable def apply_physics (vx vy gravity speed_factor dt : ℝ) : ℝ × ℝ :=
  (vx * speed_factor, (vy + gravity * dt) * speed_factor)

/-- `MarkerSystem._update_single_marker` (`marker_system.py` lines 72-94):
feedback velocity update, speed clamp, position integration, gravity and
damping, in that order.  The broad exception guard of the source concerns
float-specific failures of the division by a zero magnitude; over real
arithmetic the body is total, and the theorems below restrict to
`mag ≠ 0`, where the python body runs these same steps. -/
noncomputable def update_single_marker (m : Marker ℝ) (fitted : ℝ × ℝ)
    (dt gravity speed_factor cell_size : ℝ) (w h : Nat) : Marker ℝ :=
  let v1 := (m.vx + fitted.1 / m.mag, m.vy + fitted.2 / m.mag)
  let v2 := clamp_velocity v1.1 v1.2 cell_size
  let p := update_position m.x m.y v2.1 v2.2 dt w h
  let v3 := apply_physics v2.1 v2.2 gravity speed_factor dt
  { m with x := p.1, y := p.2, vx := v3.1, vy := v3.2 }

/-- `MarkerSystem.update_markers` (`marker_system.py` lines 30-49) on a
structurally valid grid: collect all marker positions, batch-sample them in
one call, then update each marker with its index-aligned sampled vector.
The source keeps every updated marker (the update helper always returns
the record, which is truthy), and the external state mirror it re-reads
first is modelled as in sync with the owned list. -/
noncomputable def update_markers (g : Grid ℝ) (ms : List (Marker ℝ))
    (dt gravity speed_factor cell_size : ℝ) : List (Marker ℝ) :=
  let fitted := fit_vectors_at_positions_batch g (ms.map (fun m => (m.x, m.y)))
  (ms.zip fitted).map
    (fun q => update_single_marker q.1 q.2 dt gravity speed_factor cell_size g.w g.h)

/-- `MarkerSystem.update_field_and_markers` (`marker_system.py` lines
132-140): first seed the grid with the cross splat of every marker (the
positions are read from the marker list before any update), then run the
marker tick against the seeded grid. -/
noncomputable def update_field_and_markers (g : Grid ℝ) (ms : List (Marker ℝ))
    (dt gravity speed_factor cell_size : ℝ) : Grid ℝ × List (Marker ℝ) :=
  let g2 := create_tiny_vectors_batch g (ms.map (fun m => (m.x, m.y, m.mag)))
  (g2, update_markers g2 ms dt gravity speed_factor cell_size)

/-- Spec section 4.4 step 1, stated from the spec wording (seed phase):
every particle applies its cross splat at its start-of-tick position, in
insertion order, before anything else happens. -/
noncomputable def seed_phase (g : Grid ℝ) (ms : List (Marker ℝ)) : Grid ℝ :=
  ms.foldl (fun g2 m => create_tiny_vector g2 m.x m.y m.mag) g

/-- Spec section 4.4 step 2, stated from the spec wording (sample phase):
the field is sampled at every particle position on the fully seeded grid. -/
noncomputable def sample_phase (g : Grid ℝ) (ms : List (Marker ℝ)) : List (ℝ × ℝ) :=
  ms.map (fun m => fit_vector_at_position g m.x m.y)

/-- Spec section 4.4 steps 3-6, stated from the spec wording (integrate
phase): each particle is updated from its own sampled vector only after
all sampling is done. -/
noncomputable def integrate_phase (ms : List (Marker ℝ)) (fs : List (ℝ × ℝ))
    (dt gravity speed_factor cell_size : ℝ) (w h : Nat) : List (Marker ℝ) :=
  (ms.zip fs).map
    (fun q => update_single_marker q.1 q.2 dt gravity speed_factor cell_size w h)

/-- The accelerated backend object.  `GPUVectorFieldCalculator.__init__`
calls `_init_opencl`, which catches every failure internally, records
`_initialized = False`, publishes an error event and returns normally
(`gpu_vector_field.py` lines 22-58); construction therefore always yields
an object, with `initialized` false exactly when device discovery or
kernel compilation failed. -/
structure GPUVectorFieldCalculator where
  initialized : Bool
deriving Repr, DecidableEq

/-- The dispatcher state of `VectorFieldCalculator` (`vector_field.py`
lines 12-30): the optional GPU calculator (`none` only if its constructor
raised), the active device string, and the config-store mirror of the
device key. -/
structure VectorFieldCalculator where
  gpu_calculator : Option GPUVectorFieldCalculator
  current_device : String
  config_device : Option String
deriving Repr, DecidableEq

/-- `VectorFieldCalculator.__init__` (`vector_field.py` lines 12-30): the
GPU calculator construction cannot raise (`_init_opencl` swallows its own
failures and `EventBus.publish` swallows handler failures), so the
dispatcher always holds `some` calculator whose `initialized` flag records
whether OpenCL startup succeeded; the active device starts from the config
value with default "cpu". -/
def VectorFieldCalculator.init (openclOk : Bool) (configDevice : Option String) :
    VectorFieldCalculator :=
  { gpu_calculator := some ⟨openclOk⟩
  , current_device := configDevice.getD ("cpu")
  , config_device := configDevice }

/-- `VectorFieldCalculator.set_device` (`vector_field.py` lines 37-55):
reject device names other than "cpu"/"gpu"; reject "gpu" when
`_gpu_calculator is None`; otherwise switch the active device, mirror it
into the config store and publish a device-changed event (returned here as
the event list; the synchronous re-entrant dispatch of the bus does not
alter the dispatcher state for an unchanged device). -/
def VectorFieldCalculator.set_device (s : VectorFieldCalculator) (device : String) :
    Bool × VectorFieldCalculator × List String :=
  if device ≠ "cpu" ∧ device ≠ "gpu" then (false, s, [])
  else if device = "gpu" ∧ s.gpu_calculator = none then (false, s, [])
  else (true,
    { s with current_device := device, config_device := some device },
    [device])

/-- Spec sections 3 and 4.2: the availability the accelerated backend
itself reports, the `_initialized` flag; a dispatcher whose construction
raised (`none`) also counts as unavailable. -/
def gpuBackendAvailable (s : VectorFieldCalculator) : Bool :=
  match s.gpu_calculator with
  | some c => c.initialized
  | none => false

/-- A persisted numpy array as `np.load` returns it (`app.py`): its shape
tuple and flat data.  Only the shape participates in the load guard. -/
structure NpArray where
  shape : List Nat
  flat : List ℚ
deriving Repr, DecidableEq

/-- `GridManager` (`app.py` lines 55-69): the owned grid buffer (`none`
before `init_grid`) and the state-store mirror of the grid dimensions. -/
structure GridManager where
  grid : Option NpArray
  state_width : Nat
  state_height : Nat
deriving Repr, DecidableEq

/-- `GridManager.load_grid` (`app.py` lines 131-161): a missing file fails;
a stored shape differing from the current buffer shape fails before any
mutation; otherwise a copy of the loaded array replaces the buffer and the
state mirrors are refreshed from the loaded shape (`shape[1]` is the
width, `shape[0]` the height).  Returns the success flag paired with the
resulting manager. -/
def GridManager.load_grid (gm : GridManager) (file : Option NpArray) :
    Bool × GridManager :=
  match file with
  | none => (false, gm)
  | some arr =>
    match gm.grid with
    | some cur =>
      if arr.shape ≠ cur.shape then (false, gm)
      else (true, ⟨some arr, arr.shape.getD 1 0, arr.shape.getD 0 0⟩)
    | none => (true, ⟨some arr, arr.shape.getD 1 0, arr.shape.getD 0 0⟩)

/-- The marker store with the Python object aliasing made explicit:
`heap` is the arena of marker records (an address is an index into it) and
`markers` is the list of record addresses held by `MarkerSystem.markers`.
A Python list of dicts holds references; copying the list copies the
addresses, not the records. -/
structure MarkerStore (K : Type) where
  heap : List (Marker K)
  markers : List Nat
deriving Repr, DecidableEq

/-- `MarkerSystem.add_marker` (`marker_system.py` lines 15-19): allocate a
fresh record and append its address. -/
def MarkerStore.add_marker (s : MarkerStore K) (x y mag vx vy : K) : MarkerStore K :=
  { heap := s.heap ++ [⟨x, y, mag, vx, vy⟩], markers := s.markers ++ [s.heap.length] }

/-- `MarkerSystem.get_markers` (`marker_system.py` lines 26-28):
`list(self.markers)` builds a new list whose elements are the same record
addresses (a shallow copy). -/
def MarkerStore.get_markers (s : MarkerStore K) : List Nat := s.markers

/-- A caller-side in-place mutation of one record reached through a
snapshot, like `snapshot[i]["x"] = v`: the shared heap record changes. -/
def MarkerStore.writeRecord (s : MarkerStore K) (r : Nat) (m : Marker K) :
    MarkerStore K :=
  { s with heap := s.heap.set r m }

/-- The engine-owned particle state: the records its address list denotes. -/
def MarkerStore.storedMarkers (s : MarkerStore K) : List (Marker K) :=
  s.markers.map (fun r => s.heap.getD r ⟨0, 0, 0, 0, 0⟩)

end Gravitas

namespace Gravitas

variable {K : Type} [LinearOrderedField K] [FloorRing K]

/-! Helper lemmas about list reads and writes. -/

theorem getD_map_range {α : Type} (n i : Nat) (f : Nat → α) (d : α) (hi : i < n) :
    ((List.range n).map f).getD i d = f i := by
  rw [List.getD_eq_getElem?_getD, List.getElem?_map]
  simp [List.getElem?_range hi]

theorem getD_replicate {α : Type} (n i : Nat) (v d : α) (hi : i < n) :
    (List.replicate n v).getD i d = v := by
  rw [List.getD_eq_getElem?_getD, List.getElem?_replicate]
  simp [hi]

theorem set_getD_self {α : Type} (l : List α) (i : Nat) (d : α) :
    l.set i (l.getD i d) = l := by
  induction l generalizing i with
  | nil => simp
  | cons a t ih =>
    cases i with
    | zero => simp [List.getD]
    | succ n =>
      rw [show (a :: t).set (n + 1) ((a :: t).getD (n + 1) d) =
        a :: t.set n ((a :: t).getD (n + 1) d) from rfl]
      rw [List.getD_cons_succ, ih]

theorem getD_set_self {α : Type} (l : List α) (i : Nat) (a d : α)
    (h : i < l.length) :
    (l.set i a).getD i d = a := by
  induction l generalizing i with
  | nil => simp at h
  | cons b t ih =>
    cases i with
    | zero => simp [List.getD]
    | succ n =>
      rw [show (b :: t).set (n + 1) a = b :: t.set n a from rfl]
      rw [List.getD_cons_succ]
      exact ih n (by simpa using h)

theorem flatIdx_natCast (w a b : Nat) :
    ((b : Int) * (w : Int) + (a : Int)).toNat = b * w + a := by
  rw [show ((b : Int) * (w : Int) + (a : Int)) = ((b * w + a : Nat) : Int) by
    push_cast; ring]
  rw [Int.toNat_natCast]

theorem addAt_zero (g : Grid K) (ix iy : Int) : g.addAt ix iy (0, 0) = g := by
  rw [Grid.addAt]
  have hv : ∀ a : K × K, vadd a (0, 0) = a := by
    intro a; simp [vadd]
  rw [hv, set_getD_self]

/-- C4: applying the diffusion operator to a grid whose cells all hold the
same vector `v` leaves every in-bounds cell equal to
`v * (self_w + 4 * neighbor_w)` (steady-state identity on uniform fields). -/
theorem diffuse_uniform_steady_state (g : Grid ℚ) (v : ℚ × ℚ)
    (self_w neighbor_w : ℚ) (hdata : g.data = List.replicate (g.h * g.w) v)
    (x y : Nat) (hx : x < g.w) (hy : y < g.h) :
    (update_grid_with_adjacent_sum g self_w neighbor_w).cell x y =
      vsmul (self_w + 4 * neighbor_w) v := by
  have hw : 0 < g.w := by omega
  have hidx : y * g.w + x < g.h * g.w := by
    calc y * g.w + x < y * g.w + g.w := by omega
    _ = (y + 1) * g.w := by ring
    _ ≤ g.h * g.w := Nat.mul_le_mul_right _ (by omega)
  have hcell : ∀ a b : Nat, a < g.w → b < g.h → g.cell a b = v := by
    intro a b ha hb
    have : b * g.w + a < g.h * g.w := by
      calc b * g.w + a < b * g.w + g.w := by omega
      _ = (b + 1) * g.w := by ring
      _ ≤ g.h * g.w := Nat.mul_le_mul_right _ (by omega)
    rw [Grid.cell, hdata, getD_replicate _ _ _ _ this]
  rw [Grid.cell, update_grid_with_adjacent_sum]
  simp only
  rw [getD_map_range _ _ _ _ hidx]
  rw [diffuseCell]
  have hdiv : (y * g.w + x) / g.w = y := by
    rw [Nat.add_comm, Nat.add_mul_div_right _ _ hw, Nat.div_eq_of_lt hx, Nat.zero_add]
  have hmod : (y * g.w + x) % g.w = x := by
    rw [Nat.add_comm, Nat.add_mul_mod_self_right, Nat.mod_eq_of_lt hx]
  simp only [hdiv, hmod]
  rw [hcell x (min (y + 1) (g.h - 1)) hx (by omega),
    hcell x (y - 1) hx (by omega),
    hcell (min (x + 1) (g.w - 1)) y (by omega) hy,
    hcell (x - 1) y (by omega) hy,
    hcell x y hx hy]
  simp only [vadd, vsmul]
  rw [Prod.mk.injEq]
  constructor <;> ring

/-- Witness for C4 at a concrete input: a 2 x 2 grid uniformly `(1, 2)`,
`self_w = 1/2`, `neighbor_w = 1/10`. -/
theorem diffuse_uniform_steady_state_witness :
    (⟨2, 2, List.replicate 4 ((1 : ℚ), (2 : ℚ))⟩ : Grid ℚ).data =
        List.replicate (2 * 2) ((1 : ℚ), (2 : ℚ)) ∧
      (update_grid_with_adjacent_sum
          (⟨2, 2, List.replicate 4 ((1 : ℚ), (2 : ℚ))⟩ : Grid ℚ) (1/2) (1/10)).cell 1 1 =
        vsmul ((1 : ℚ)/2 + 4 * (1/10)) (1, 2) :=
  ⟨by decide, diffuse_uniform_steady_state ⟨2, 2, List.replicate 4 (1, 2)⟩ (1, 2)
    (1/2) (1/10) (by decide) 1 1 (by decide) (by decide)⟩

/-! C6 helper lemmas: each boundary-clamped read of the diffusion stencil
splits into the bounds-checked point-query contribution plus an indicator
term for the missing neighbor replaced by the own cell value. -/

theorem vsmul_vadd (c : K) (a b : K × K) :
    vsmul c (vadd a b) = vadd (vsmul c a) (vsmul c b) := by
  simp [vsmul, vadd, mul_add]

theorem cellI_natCast (g : Grid K) (a b : Nat) :
    g.cellI (a : Int) (b : Int) = g.cell a b := by
  rw [Grid.cellI, Grid.cell]
  rw [show ((b : Int) * (g.w : Int) + (a : Int)) = ((b * g.w + a : Nat) : Int) by
    push_cast; ring]
  rw [Int.toNat_natCast]

theorem up_neighbor_split (g : Grid K) (nw : K) (x y : Nat) (hx : x < g.w)
    (hy : y < g.h) :
    vsmul nw (g.cell x (min (y + 1) (g.h - 1))) =
      vadd (neighborContrib g nw (x : Int) ((y : Int) + 1))
        (vsmul (nw * (if g.h ≤ y + 1 then 1 else 0)) (g.cell x y)) := by
  by_cases hb : g.h ≤ y + 1
  · rw [show min (y + 1) (g.h - 1) = y from by omega]
    simp only [neighborContrib]
    rw [if_neg (by omega), if_pos hb]
    simp [vadd, vsmul]
  · rw [show min (y + 1) (g.h - 1) = y + 1 from by omega]
    simp only [neighborContrib]
    rw [if_pos (by omega)]
    rw [show ((y : Int) + 1) = ((y + 1 : Nat) : Int) from by push_cast; ring]
    rw [cellI_natCast, if_neg hb]
    simp [vadd, vsmul]

theorem down_neighbor_split (g : Grid K) (nw : K) (x y : Nat) (hx : x < g.w)
    (hy : y < g.h) :
    vsmul nw (g.cell x (y - 1)) =
      vadd (neighborContrib g nw (x : Int) ((y : Int) - 1))
        (vsmul (nw * (if y = 0 then 1 else 0)) (g.cell x y)) := by
  by_cases hb : y = 0
  · subst hb
    simp only [neighborContrib]
    rw [if_neg (by omega)]
    simp [vadd, vsmul]
  · simp only [neighborContrib]
    rw [if_pos (by omega)]
    rw [show ((y : Int) - 1) = ((y - 1 : Nat) : Int) from by omega]
    rw [cellI_natCast, if_neg hb]
    simp [vadd, vsmul]

theorem left_neighbor_split (g : Grid K) (nw : K) (x y : Nat) (hx : x < g.w)
    (hy : y < g.h) :
    vsmul nw (g.cell (min (x + 1) (g.w - 1)) y) =
      vadd (neighborContrib g nw ((x : Int) + 1) (y : Int))
        (vsmul (nw * (if g.w ≤ x + 1 then 1 else 0)) (g.cell x y)) := by
  by_cases hb : g.w ≤ x + 1
  · rw [show min (x + 1) (g.w - 1) = x from by omega]
    simp only [neighborContrib]
    rw [if_neg (by omega), if_pos hb]
    simp [vadd, vsmul]
  · rw [show min (x + 1) (g.w - 1) = x + 1 from by omega]
    simp only [neighborContrib]
    rw [if_pos (by omega)]
    rw [show ((x : Int) + 1) = ((x + 1 : Nat) : Int) from by push_cast; ring]
    rw [cellI_natCast, if_neg hb]
    simp [vadd, vsmul]

theorem right_neighbor_split (g : Grid K) (nw : K) (x y : Nat) (hx : x < g.w)
    (hy : y < g.h) :
    vsmul nw (g.cell (x - 1) y) =
      vadd (neighborContrib g nw ((x : Int) - 1) (y : Int))
        (vsmul (nw * (if x = 0 then 1 else 0)) (g.cell x y)) := by
  by_cases hb : x = 0
  · subst hb
    simp only [neighborContrib]
    rw [if_neg (by omega)]
    simp [vadd, vsmul]
  · simp only [neighborContrib]
    rw [if_pos (by omega)]
    rw [show ((x : Int) - 1) = ((x - 1 : Nat) : Int) from by omega]
    rw [cellI_natCast, if_neg hb]
    simp [vadd, vsmul]

/-- C6: the point query and the full-grid operator implement different
boundary policies.  At every in-bounds cell, the diffused value equals the
point-query value (whose out-of-range neighbors contribute exactly zero)
plus `neighbor_weight` times the number of out-of-range axis neighbors
times the own cell value (each missing neighbor of the full-grid operator
is replaced by the edge-replicated own value). -/
theorem diffuse_vs_point_query_boundary (g : Grid ℚ) (sw nw : ℚ) (x y : Nat)
    (hx : x < g.w) (hy : y < g.h) :
    (update_grid_with_adjacent_sum g sw nw).cell x y =
      vadd (sum_adjacent_vectors g (x : Int) (y : Int) sw nw)
        (vsmul (nw * (boundaryDeficit g x y : ℚ)) (g.cell x y)) := by
  have hw : 0 < g.w := by omega
  have hidx : y * g.w + x < g.h * g.w := by
    calc y * g.w + x < y * g.w + g.w := by omega
    _ = (y + 1) * g.w := by ring
    _ ≤ g.h * g.w := Nat.mul_le_mul_right _ (by omega)
  have hdiv : (y * g.w + x) / g.w = y := by
    rw [Nat.add_comm, Nat.add_mul_div_right _ _ hw, Nat.div_eq_of_lt hx, Nat.zero_add]
  have hmod : (y * g.w + x) % g.w = x := by
    rw [Nat.add_comm, Nat.add_mul_mod_self_right, Nat.mod_eq_of_lt hx]
  rw [Grid.cell, update_grid_with_adjacent_sum]
  simp only
  rw [getD_map_range _ _ _ _ hidx, diffuseCell]
  simp only [hdiv, hmod]
  simp only [sum_adjacent_vectors]
  split_ifs with hself
  · rw [cellI_natCast]
    rw [vsmul_vadd, vsmul_vadd, vsmul_vadd]
    rw [up_neighbor_split g nw x y hx hy, down_neighbor_split g nw x y hx hy,
      left_neighbor_split g nw x y hx hy, right_neighbor_split g nw x y hx hy]
    rw [boundaryDeficit]
    push_cast
    simp only [vadd, vsmul, Prod.mk.injEq]
    constructor <;> ring
  · exact absurd (by omega) hself

/-- Witness for C6 at a concrete input: the corner cell `(0, 0)` of a
2 x 2 grid with distinct cell values. -/
theorem diffuse_vs_point_query_boundary_witness :
    (0 : Nat) < 2 ∧
      (update_grid_with_adjacent_sum
          (⟨2, 2, [((1 : ℚ), 2), (3, 4), (5, 6), (7, 8)]⟩ : Grid ℚ) (1/2) (1/10)).cell 0 0 =
        vadd (sum_adjacent_vectors (⟨2, 2, [((1 : ℚ), 2), (3, 4), (5, 6), (7, 8)]⟩ : Grid ℚ)
            (0 : Int) (0 : Int) (1/2) (1/10))
          (vsmul ((1 : ℚ)/10 *
              (boundaryDeficit (⟨2, 2, [((1 : ℚ), 2), (3, 4), (5, 6), (7, 8)]⟩ : Grid ℚ) 0 0 : ℚ))
            ((⟨2, 2, [((1 : ℚ), 2), (3, 4), (5, 6), (7, 8)]⟩ : Grid ℚ).cell 0 0)) :=
  ⟨by decide, diffuse_vs_point_query_boundary ⟨2, 2, [(1, 2), (3, 4), (5, 6), (7, 8)]⟩
    (1/2) (1/10) 0 0 (by decide) (by decide)⟩

theorem addAt_length (g : Grid K) (ix iy : Int) (v : K × K) :
    (g.addAt ix iy v).data.length = g.data.length := by
  simp [Grid.addAt]

theorem addAt_w (g : Grid K) (ix iy : Int) (v : K × K) :
    (g.addAt ix iy v).w = g.w := rfl

theorem addAt_h (g : Grid K) (ix iy : Int) (v : K × K) :
    (g.addAt ix iy v).h = g.h := rfl

/-- C5: splatting `(vx, vy)` onto an all-zero grid at an integer-aligned
in-bounds coordinate `(x, y)` and then sampling at exactly `(x, y)` returns
`(vx, vy)` within the 1e-4 tolerance (over exact arithmetic the roundtrip
is exact, so the tolerance holds with slack). -/
theorem splat_then_sample_roundtrip (g : Grid ℚ) (x y : Nat) (vx vy : ℚ)
    (hx : x < g.w) (hy : y < g.h)
    (hdata : g.data = List.replicate (g.h * g.w) (0, 0)) :
    |(fit_vector_at_position (add_vector_at_position g (x : ℚ) (y : ℚ) vx vy)
        (x : ℚ) (y : ℚ)).1 - vx| ≤ 1 / 10000 ∧
      |(fit_vector_at_position (add_vector_at_position g (x : ℚ) (y : ℚ) vx vy)
        (x : ℚ) (y : ℚ)).2 - vy| ≤ 1 / 10000 := by
  have hcx : clampCoord ((x : ℚ)) g.w = (x : ℚ) := by
    rw [clampCoord]
    have h1 : ((x : ℚ)) ≤ (g.w : ℚ) - 1 := by
      have h2 : ((x : ℚ)) + 1 ≤ (g.w : ℚ) := by exact_mod_cast Nat.succ_le_of_lt hx
      linarith
    rw [min_eq_right h1, max_eq_right (Nat.cast_nonneg x)]
  have hcy : clampCoord ((y : ℚ)) g.h = (y : ℚ) := by
    rw [clampCoord]
    have h1 : ((y : ℚ)) ≤ (g.h : ℚ) - 1 := by
      have h2 : ((y : ℚ)) + 1 ≤ (g.h : ℚ) := by exact_mod_cast Nat.succ_le_of_lt hy
      linarith
    rw [min_eq_right h1, max_eq_right (Nat.cast_nonneg y)]
  have hsi : ∀ g2 : Grid ℚ, g2.w = g.w → g2.h = g.h →
      splatIndices g2 ((x : ℚ)) ((y : ℚ)) =
        ((x : Int), min ((x : Int) + 1) ((g.w : Int) - 1),
          (y : Int), min ((y : Int) + 1) ((g.h : Int) - 1)) := by
    intro g2 hgw hgh
    rw [splatIndices, hgw, hgh, hcx, hcy, Int.floor_natCast, Int.floor_natCast]
  have hidx : y * g.w + x < g.h * g.w := by
    calc y * g.w + x < y * g.w + g.w := by omega
    _ = (y + 1) * g.w := by ring
    _ ≤ g.h * g.w := Nat.mul_le_mul_right _ (by omega)
  have hlen : g.data.length = g.h * g.w := by rw [hdata, List.length_replicate]
  have hadd : add_vector_at_position g ((x : ℚ)) ((y : ℚ)) vx vy =
      g.addAt ((x : Int)) ((y : Int)) (vx, vy) := by
    rw [add_vector_at_position, hsi g rfl rfl]
    simp only [hcx, hcy, Int.cast_natCast, sub_self, zero_mul, mul_zero, sub_zero,
      one_mul, mul_one, zero_mul]
    rw [addAt_zero, addAt_zero, addAt_zero]
  have hcell : (g.addAt ((x : Int)) ((y : Int)) (vx, vy)).cellI ((x : Int)) ((y : Int)) =
      (vx, vy) := by
    rw [Grid.addAt, Grid.cellI]
    simp only
    rw [flatIdx_natCast]
    rw [getD_set_self _ _ _ _ (by rw [hlen]; exact hidx)]
    rw [hdata, getD_replicate _ _ _ _ hidx]
    simp [vadd]
  have hfit : fit_vector_at_position (g.addAt ((x : Int)) ((y : Int)) (vx, vy))
      ((x : ℚ)) ((y : ℚ)) = (vx, vy) := by
    rw [fit_vector_at_position,
      hsi (g.addAt ((x : Int)) ((y : Int)) (vx, vy)) rfl rfl]
    simp only [addAt_w, addAt_h, hcx, hcy, Int.cast_natCast, sub_self, zero_mul,
      mul_zero, sub_zero, one_mul, mul_one, add_zero, zero_add, hcell]
  rw [hadd, hfit]
  norm_num

/-- Witness for C5 at a concrete input: a 3 x 3 zero grid, splat `(2, -3)`
at `(1, 1)`. -/
theorem splat_then_sample_roundtrip_witness :
    (1 : Nat) < 3 ∧
      (⟨3, 3, List.replicate 9 ((0 : ℚ), (0 : ℚ))⟩ : Grid ℚ).data =
        List.replicate (3 * 3) ((0 : ℚ), (0 : ℚ)) ∧
      (|(fit_vector_at_position
          (add_vector_at_position (⟨3, 3, List.replicate 9 ((0 : ℚ), (0 : ℚ))⟩ : Grid ℚ)
            ((1 : Nat) : ℚ) ((1 : Nat) : ℚ) 2 (-3)) ((1 : Nat) : ℚ) ((1 : Nat) : ℚ)).1 - 2| ≤
          1 / 10000 ∧
        |(fit_vector_at_position
          (add_vector_at_position (⟨3, 3, List.replicate 9 ((0 : ℚ), (0 : ℚ))⟩ : Grid ℚ)
            ((1 : Nat) : ℚ) ((1 : Nat) : ℚ) 2 (-3)) ((1 : Nat) : ℚ) ((1 : Nat) : ℚ)).2 - (-3)| ≤
          1 / 10000) :=
  ⟨by decide, by decide,
    splat_then_sample_roundtrip ⟨3, 3, List.replicate 9 (0, 0)⟩ 1 1 2 (-3)
      (by decide) (by decide) (by decide)⟩

/-- C7: for every coordinate `(x, y)`, in bounds or not, the four splat
target indices `(x0, x1, y0, y1)` are clamped into `[0, w) x [0, h)`
(`x0 ≤ x1 < w`, so the `+1` neighbor clamps to the edge rather than
wrapping), and the splat only rewrites stored cells in place, preserving
the data length and the grid shape — no write lands outside the buffer. -/
theorem splat_writes_in_bounds (g : Grid ℚ) (x y vx vy : ℚ)
    (hw : 1 ≤ g.w) (hh : 1 ≤ g.h) :
    (0 ≤ (splatIndices g x y).1 ∧
      (splatIndices g x y).1 ≤ (splatIndices g x y).2.1 ∧
      (splatIndices g x y).2.1 < (g.w : Int) ∧
      0 ≤ (splatIndices g x y).2.2.1 ∧
      (splatIndices g x y).2.2.1 ≤ (splatIndices g x y).2.2.2 ∧
      (splatIndices g x y).2.2.2 < (g.h : Int)) ∧
      (add_vector_at_position g x y vx vy).data.length = g.data.length ∧
      (add_vector_at_position g x y vx vy).w = g.w ∧
      (add_vector_at_position g x y vx vy).h = g.h := by
  have hwq : (1 : ℚ) ≤ (g.w : ℚ) := by exact_mod_cast hw
  have hhq : (1 : ℚ) ≤ (g.h : ℚ) := by exact_mod_cast hh
  have h0x : (0 : ℚ) ≤ clampCoord x g.w := le_max_left _ _
  have h1x : clampCoord x g.w ≤ (g.w : ℚ) - 1 :=
    max_le (by linarith) (min_le_left _ _)
  have h0y : (0 : ℚ) ≤ clampCoord y g.h := le_max_left _ _
  have h1y : clampCoord y g.h ≤ (g.h : ℚ) - 1 :=
    max_le (by linarith) (min_le_left _ _)
  have hfx0 : (0 : Int) ≤ ⌊clampCoord x g.w⌋ := Int.floor_nonneg.mpr h0x
  have hfy0 : (0 : Int) ≤ ⌊clampCoord y g.h⌋ := Int.floor_nonneg.mpr h0y
  have hfx1 : ⌊clampCoord x g.w⌋ ≤ (g.w : Int) - 1 := by
    have h2 : ⌊clampCoord x g.w⌋ ≤ ⌊(g.w : ℚ) - 1⌋ := Int.floor_le_floor h1x
    rw [show ((g.w : ℚ) - 1) = (((g.w : Int) - 1 : Int) : ℚ) from by push_cast; ring,
      Int.floor_intCast] at h2
    exact h2
  have hfy1 : ⌊clampCoord y g.h⌋ ≤ (g.h : Int) - 1 := by
    have h2 : ⌊clampCoord y g.h⌋ ≤ ⌊(g.h : ℚ) - 1⌋ := Int.floor_le_floor h1y
    rw [show ((g.h : ℚ) - 1) = (((g.h : Int) - 1 : Int) : ℚ) from by push_cast; ring,
      Int.floor_intCast] at h2
    exact h2
  refine ⟨⟨?_, ?_, ?_, ?_, ?_, ?_⟩, ?_, rfl, rfl⟩
  · exact hfx0
  · rw [splatIndices]; simp only; omega
  · rw [splatIndices]; simp only; omega
  · exact hfy0
  · rw [splatIndices]; simp only; omega
  · rw [splatIndices]; simp only; omega
  · rw [add_vector_at_position]
    simp only [addAt_length]

/-- Witness for C7 at a concrete input: an out-of-bounds coordinate
`(7.5, -2)` on a 2 x 2 grid. -/
theorem splat_writes_in_bounds_witness :
    (1 : Nat) ≤ 2 ∧
      (0 ≤ (splatIndices (⟨2, 2, List.replicate 4 ((0 : ℚ), (0 : ℚ))⟩ : Grid ℚ)
          (15/2) (-2)).1 ∧
        (splatIndices (⟨2, 2, List.replicate 4 ((0 : ℚ), (0 : ℚ))⟩ : Grid ℚ)
          (15/2) (-2)).1 ≤ (splatIndices (⟨2, 2, List.replicate 4 ((0 : ℚ), (0 : ℚ))⟩ : Grid ℚ)
          (15/2) (-2)).2.1 ∧
        (splatIndices (⟨2, 2, List.replicate 4 ((0 : ℚ), (0 : ℚ))⟩ : Grid ℚ)
          (15/2) (-2)).2.1 < ((2 : Nat) : Int) ∧
        0 ≤ (splatIndices (⟨2, 2, List.replicate 4 ((0 : ℚ), (0 : ℚ))⟩ : Grid ℚ)
          (15/2) (-2)).2.2.1 ∧
        (splatIndices (⟨2, 2, List.replicate 4 ((0 : ℚ), (0 : ℚ))⟩ : Grid ℚ)
          (15/2) (-2)).2.2.1 ≤ (splatIndices (⟨2, 2, List.replicate 4 ((0 : ℚ), (0 : ℚ))⟩ : Grid ℚ)
          (15/2) (-2)).2.2.2 ∧
        (splatIndices (⟨2, 2, List.replicate 4 ((0 : ℚ), (0 : ℚ))⟩ : Grid ℚ)
          (15/2) (-2)).2.2.2 < ((2 : Nat) : Int)) ∧
      (add_vector_at_position (⟨2, 2, List.replicate 4 ((0 : ℚ), (0 : ℚ))⟩ : Grid ℚ)
          (15/2) (-2) 1 1).data.length =
        (⟨2, 2, List.replicate 4 ((0 : ℚ), (0 : ℚ))⟩ : Grid ℚ).data.length ∧
      (add_vector_at_position (⟨2, 2, List.replicate 4 ((0 : ℚ), (0 : ℚ))⟩ : Grid ℚ)
          (15/2) (-2) 1 1).w = 2 ∧
      (add_vector_at_position (⟨2, 2, List.replicate 4 ((0 : ℚ), (0 : ℚ))⟩ : Grid ℚ)
          (15/2) (-2) 1 1).h = 2 :=
  ⟨by decide,
    splat_writes_in_bounds ⟨2, 2, List.replicate 4 (0, 0)⟩ (15/2) (-2) 1 1
      (by decide) (by decide)⟩

/-! Shape preservation of the seeding operations. -/

theorem add_vector_at_position_w (g : Grid K) (x y vx vy : K) :
    (add_vector_at_position g x y vx vy).w = g.w := rfl

theorem add_vector_at_position_h (g : Grid K) (x y vx vy : K) :
    (add_vector_at_position g x y vx vy).h = g.h := rfl

theorem create_tiny_vector_w (g : Grid K) (x y mag : K) :
    (create_tiny_vector g x y mag).w = g.w := by
  simp only [create_tiny_vector, add_vector_at_position_w]

theorem create_tiny_vector_h (g : Grid K) (x y mag : K) :
    (create_tiny_vector g x y mag).h = g.h := by
  simp only [create_tiny_vector, add_vector_at_position_h]

theorem seed_phase_w (ms : List (Marker ℝ)) (g : Grid ℝ) :
    (seed_phase g ms).w = g.w := by
  induction ms generalizing g with
  | nil => rfl
  | cons m t ih =>
    rw [seed_phase, List.foldl_cons, ← seed_phase, ih]
    exact create_tiny_vector_w g m.x m.y m.mag

theorem seed_phase_h (ms : List (Marker ℝ)) (g : Grid ℝ) :
    (seed_phase g ms).h = g.h := by
  induction ms generalizing g with
  | nil => rfl
  | cons m t ih =>
    rw [seed_phase, List.foldl_cons, ← seed_phase, ih]
    exact create_tiny_vector_h g m.x m.y m.mag

/-- C2: one feedback tick equals the three-phase pipeline with global
barriers: first every particle cross-splat is applied to the grid at the
position the particle held at the start of the tick; only then is the
field sampled, once per particle, on the fully seeded grid; only then is
any particle updated, each from its own sample.  The code path
(`update_field_and_markers`, which seeds in one batch call and then
batch-samples before any per-particle update) coincides with that
phase-decomposed computation for every grid and particle list. -/
theorem tick_phase_barriers (g : Grid ℝ) (ms : List (Marker ℝ))
    (dt gravity speed_factor cell_size : ℝ) :
    update_field_and_markers g ms dt gravity speed_factor cell_size =
      (seed_phase g ms,
        integrate_phase ms (sample_phase (seed_phase g ms) ms)
          dt gravity speed_factor cell_size g.w g.h) := by
  have hseed : create_tiny_vectors_batch g (ms.map (fun m => (m.x, m.y, m.mag))) =
      seed_phase g ms := by
    rw [create_tiny_vectors_batch, seed_phase, List.foldl_map]
  simp only [update_field_and_markers, update_markers, hseed]
  simp only [fit_vectors_at_positions_batch, List.map_map]
  rw [seed_phase_w, seed_phase_h]
  simp only [integrate_phase, sample_phase, List.map_map]
  rfl

/-- C3: for a particle of nonzero magnitude and sampled field `(fx, fy)`,
one tick performs, in this exact order: the feedback step
`velocity += (fx, fy) / mag`; the speed clamp rescaling the velocity to
norm `cell_size` whenever its norm exceeds `cell_size`; the position step
`position += velocity * dt` clamped into `[0, w-1] x [0, h-1]` using the
clamped velocity; then `vy += gravity * dt`; then both velocity components
scaled by the damping factor.  The second conjunct checks that the clamp
really renormalizes to `cell_size`. -/
theorem marker_update_pipeline (m : Marker ℝ) (fitted : ℝ × ℝ)
    (dt gravity speed_factor cell_size : ℝ) (w h : Nat)
    (hm : m.mag ≠ 0) (hc : 0 ≤ cell_size) :
    (update_single_marker m fitted dt gravity speed_factor cell_size w h =
      { x := max 0 (min ((w : ℝ) - 1)
          (m.x + (clamp_velocity (m.vx + fitted.1 / m.mag)
            (m.vy + fitted.2 / m.mag) cell_size).1 * dt)),
        y := max 0 (min ((h : ℝ) - 1)
          (m.y + (clamp_velocity (m.vx + fitted.1 / m.mag)
            (m.vy + fitted.2 / m.mag) cell_size).2 * dt)),
        mag := m.mag,
        vx := (clamp_velocity (m.vx + fitted.1 / m.mag)
          (m.vy + fitted.2 / m.mag) cell_size).1 * speed_factor,
        vy := ((clamp_velocity (m.vx + fitted.1 / m.mag)
          (m.vy + fitted.2 / m.mag) cell_size).2 + gravity * dt) * speed_factor }) ∧
      ∀ a b : ℝ, Real.sqrt (a ^ 2 + b ^ 2) > cell_size →
        Real.sqrt ((clamp_velocity a b cell_size).1 ^ 2 +
          (clamp_velocity a b cell_size).2 ^ 2) = cell_size := by
  constructor
  · rfl
  · intro a b hab
    have hs : 0 < Real.sqrt (a ^ 2 + b ^ 2) := lt_of_le_of_lt hc hab
    have hs2 : Real.sqrt (a ^ 2 + b ^ 2) ^ 2 = a ^ 2 + b ^ 2 :=
      Real.sq_sqrt (by positivity)
    have hne : Real.sqrt (a ^ 2 + b ^ 2) ≠ 0 := ne_of_gt hs
    simp only [clamp_velocity, if_pos hab]
    have hsum : a ^ 2 + b ^ 2 ≠ 0 := by
      rw [← hs2]; exact pow_ne_zero 2 hne
    have key : (a / Real.sqrt (a ^ 2 + b ^ 2) * cell_size) ^ 2 +
        (b / Real.sqrt (a ^ 2 + b ^ 2) * cell_size) ^ 2 = cell_size ^ 2 := by
      have hexp : (a / Real.sqrt (a ^ 2 + b ^ 2) * cell_size) ^ 2 +
          (b / Real.sqrt (a ^ 2 + b ^ 2) * cell_size) ^ 2 =
          (a ^ 2 + b ^ 2) / Real.sqrt (a ^ 2 + b ^ 2) ^ 2 * cell_size ^ 2 := by
        ring
      rw [hexp, hs2, div_self hsum, one_mul]
    rw [key, Real.sqrt_sq hc]

/-- Witness for C3 at a concrete input: a unit-magnitude particle at the
origin with zero velocity and zero sampled field, `cell_size = 1`. -/
theorem marker_update_pipeline_witness :
    (1 : ℝ) ≠ 0 ∧ (0 : ℝ) ≤ 1 ∧
      ((update_single_marker ⟨0, 0, 1, 0, 0⟩ (0, 0) 1 0 1 1 3 3 =
        { x := max 0 (min (((3 : Nat) : ℝ) - 1)
            ((0 : ℝ) + (clamp_velocity ((0 : ℝ) + 0 / 1) ((0 : ℝ) + 0 / 1) 1).1 * 1)),
          y := max 0 (min (((3 : Nat) : ℝ) - 1)
            ((0 : ℝ) + (clamp_velocity ((0 : ℝ) + 0 / 1) ((0 : ℝ) + 0 / 1) 1).2 * 1)),
          mag := 1,
          vx := (clamp_velocity ((0 : ℝ) + 0 / 1) ((0 : ℝ) + 0 / 1) 1).1 * 1,
          vy := ((clamp_velocity ((0 : ℝ) + 0 / 1) ((0 : ℝ) + 0 / 1) 1).2 + 0 * 1) * 1 }) ∧
        ∀ a b : ℝ, Real.sqrt (a ^ 2 + b ^ 2) > 1 →
          Real.sqrt ((clamp_velocity a b 1).1 ^ 2 + (clamp_velocity a b 1).2 ^ 2) = 1) :=
  ⟨by norm_num, by norm_num,
    marker_update_pipeline ⟨0, 0, 1, 0, 0⟩ (0, 0) 1 0 1 1 3 3
      (by norm_num) (by norm_num)⟩

/-- C1 (evaluation of the defect): on a system whose OpenCL initialization
fails, the dispatcher still holds a non-None GPU calculator object (the
constructor swallows its failures), so the backend reports unavailable,
yet `set_device "gpu"` returns success and switches the active device away
from the default "cpu"; a repeated call also succeeds.  The guard tests
`_gpu_calculator is None` — which construction can never produce — instead
of the availability the backend reports, contradicting the claimed
rejection. -/
theorem set_device_gpu_accepts_unavailable_backend :
    gpuBackendAvailable (VectorFieldCalculator.init false none) = false ∧
      (VectorFieldCalculator.init false none).current_device = "cpu" ∧
      ((VectorFieldCalculator.init false none).set_device "gpu").1 = true ∧
      ((VectorFieldCalculator.init false none).set_device
        "gpu").2.1.current_device = "gpu" ∧
      (((VectorFieldCalculator.init false none).set_device
        "gpu").2.1.set_device "gpu").1 = true := by
  refine ⟨rfl, rfl, ?_, ?_, ?_⟩ <;> decide

/-- C9: loading a persisted buffer whose stored shape differs from the
shape of the currently held buffer returns failure and leaves the manager
— buffer and dimension mirrors — exactly as it was: atomic failure, no
partial apply. -/
theorem load_grid_shape_mismatch_atomic (gm : GridManager) (cur arr : NpArray)
    (hg : gm.grid = some cur) (hne : arr.shape ≠ cur.shape) :
    gm.load_grid (some arr) = (false, gm) := by
  simp [GridManager.load_grid, hg, hne]

/-- Witness for C9 at a concrete input: a held 480 x 640 x 2 buffer and a
persisted 3 x 3 x 2 array. -/
theorem load_grid_shape_mismatch_atomic_witness :
    (⟨some ⟨[480, 640, 2], []⟩, 640, 480⟩ : GridManager).grid =
        some ⟨[480, 640, 2], []⟩ ∧
      ([3, 3, 2] : List Nat) ≠ [480, 640, 2] ∧
      (⟨some ⟨[480, 640, 2], []⟩, 640, 480⟩ : GridManager).load_grid
          (some ⟨[3, 3, 2], [(0 : ℚ)]⟩) =
        (false, (⟨some ⟨[480, 640, 2], []⟩, 640, 480⟩ : GridManager)) :=
  ⟨rfl, by decide,
    load_grid_shape_mismatch_atomic _ ⟨[480, 640, 2], []⟩ ⟨[3, 3, 2], [0]⟩
      rfl (by decide)⟩

/-- C8 counterexample: `get_markers` returns a shallow copy, so mutating a
particle record reached through the snapshot changes the stored particle
state — at this concrete input, the claimed independence from engine state
fails for record-level mutation. -/
theorem snapshot_record_mutation_visible :
    (0 : Nat) ∈ (MarkerStore.add_marker (⟨[], []⟩ : MarkerStore ℚ) 1 2 3 0 0).get_markers ∧
      ((MarkerStore.add_marker (⟨[], []⟩ : MarkerStore ℚ) 1 2 3 0 0).writeRecord 0
          ⟨9, 9, 9, 9, 9⟩).storedMarkers ≠
        (MarkerStore.add_marker (⟨[], []⟩ : MarkerStore ℚ) 1 2 3 0 0).storedMarkers := by
  decide

/-- C8 (amended): the snapshot is a fresh list whose elements are the
stored record addresses.  Replacing, removing or reordering entries of the
returned list never reaches the store — the engine address list is a
separate value, unchanged by record writes — but an in-place write to a
record reached through the snapshot is visible in the engine-owned
particle state. -/
theorem snapshot_shallow_copy (s : MarkerStore ℚ) (r : Nat) (m : Marker ℚ)
    (hr : r ∈ s.get_markers) (hlen : r < s.heap.length)
    (hm : m ≠ s.heap.getD r ⟨0, 0, 0, 0, 0⟩) :
    s.get_markers = s.markers ∧ (s.writeRecord r m).markers = s.markers ∧
      (s.writeRecord r m).storedMarkers ≠ s.storedMarkers := by
  refine ⟨rfl, rfl, ?_⟩
  intro hEq
  obtain ⟨i, hiLt, hiEq⟩ := List.getElem_of_mem (show r ∈ s.markers from hr)
  have hsome : s.markers[i]? = some r := by
    rw [List.getElem?_eq_getElem hiLt]
    exact congrArg some hiEq
  have h1 := congrArg (fun l : List (Marker ℚ) => l[i]?) hEq
  simp only [MarkerStore.storedMarkers, MarkerStore.writeRecord,
    List.getElem?_map, hsome, Option.map_some'] at h1
  rw [getD_set_self _ _ _ _ hlen] at h1
  exact hm (Option.some.inj h1)

/-- Witness for the amended C8 at a concrete input: one stored record,
mutated through the snapshot address. -/
theorem snapshot_shallow_copy_witness :
    (0 : Nat) ∈ (MarkerStore.add_marker (⟨[], []⟩ : MarkerStore ℚ) 1 2 3 0 0).get_markers ∧
      (0 : Nat) < (MarkerStore.add_marker (⟨[], []⟩ : MarkerStore ℚ) 1 2 3 0 0).heap.length ∧
      (⟨9, 9, 9, 9, 9⟩ : Marker ℚ) ≠
        (MarkerStore.add_marker (⟨[], []⟩ : MarkerStore ℚ) 1 2 3 0 0).heap.getD 0
          ⟨0, 0, 0, 0, 0⟩ ∧
      ((MarkerStore.add_marker (⟨[], []⟩ : MarkerStore ℚ) 1 2 3 0 0).get_markers =
          (MarkerStore.add_marker (⟨[], []⟩ : MarkerStore ℚ) 1 2 3 0 0).markers ∧
        ((MarkerStore.add_marker (⟨[], []⟩ : MarkerStore ℚ) 1 2 3 0 0).writeRecord 0
            ⟨9, 9, 9, 9, 9⟩).markers =
          (MarkerStore.add_marker (⟨[], []⟩ : MarkerStore ℚ) 1 2 3 0 0).markers ∧
        ((MarkerStore.add_marker (⟨[], []⟩ : MarkerStore ℚ) 1 2 3 0 0).writeRecord 0
            ⟨9, 9, 9, 9, 9⟩).storedMarkers ≠
          (MarkerStore.add_marker (⟨[], []⟩ : MarkerStore ℚ) 1 2 3 0 0).storedMarkers) :=
  ⟨by decide, by decide, by decide,
    snapshot_shallow_copy (MarkerStore.add_marker ⟨[], []⟩ 1 2 3 0 0) 0 ⟨9, 9, 9, 9, 9⟩
      (by decide) (by decide) (by decide)⟩

end Gravitas
